import Mathlib

/-!
Verification of the opengraph repository's document-walk, tag-extraction and
contribution subsystem (src/opengraph.go and src/tag_link.go).

The HTML node tree is the one of golang.org/x/net/html: typed nodes with a
tag name, an ordered attribute list and first-child/next-sibling navigation,
embedded here as a tree with an ordered child list.  `walk`, `LinkTag`,
`Link.Contribute`, `Link.IsFavicon`, `Link.IsCanonical` and `Fetch`-level
control flow are translated from the source.  The meta and title fragment
code (tag_meta.go, tag_title.go) and the `Intent` type are code of this
repository that is not under src/; they are modelled from the spec and the
walk is kept parametric in the meta/title contribution functions
(`walkWith`), instantiated with the spec-modelled defaults in
`OpenGraph.walk`.
-/

/-- Node kinds of the external HTML parser's tree (html.NodeType). -/
inductive NodeType where
  | errorNode
  | textNode
  | documentNode
  | elementNode
  | commentNode
  | doctypeNode
  | rawNode
deriving DecidableEq, Repr

/-- One attribute key/value pair of an element node (html.Attribute; the
namespace component is ignored by every extractor in the source). -/
structure Attribute where
  key : String
  val : String
deriving DecidableEq, Repr

mutual
/-- The parsed HTML tree (html.Node): node type, tag name / text data,
ordered attribute list and the ordered child list (first-child /
next-sibling chain). -/
inductive Node where
  | mk (type : NodeType) (data : String) (attr : List Attribute) (children : NodeList)

/-- The first-child/next-sibling chain of an html.Node, as an ordered list. -/
inductive NodeList where
  | nil
  | cons (head : Node) (tail : NodeList)
end

def Node.type : Node → NodeType
  | .mk t _ _ _ => t

def Node.data : Node → String
  | .mk _ d _ _ => d

def Node.attr : Node → List Attribute
  | .mk _ _ a _ => a

def Node.children : Node → NodeList
  | .mk _ _ _ cs => cs

def NodeList.ofList : List Node → NodeList
  | [] => .nil
  | c :: cs => .cons c (ofList cs)

/-- HTMLMetaTag is a tag name of meta (src/opengraph.go). -/
def HTMLMetaTag : String := "meta"

/-- HTMLLinkTag is a tag name of link (src/opengraph.go). -/
def HTMLLinkTag : String := "link"

/-- HTMLTitleTag is a tag name of title (src/opengraph.go). -/
def HTMLTitleTag : String := "title"

/-- Modelled from the spec: a structured media entry for images — a primary
URL plus optional companion attributes (width, height, type, secure URL,
alt text); the Image fragment type itself is repository code not under
src/. -/
structure Image where
  URL : String := ""
  SecureURL : String := ""
  «Type» : String := ""
  Width : Nat := 0
  Height : Nat := 0
  Alt : String := ""
deriving DecidableEq, Repr

/-- Modelled from the spec: a structured media entry for audio. -/
structure Audio where
  URL : String := ""
  SecureURL : String := ""
  «Type» : String := ""
deriving DecidableEq, Repr

/-- Modelled from the spec: a structured media entry for video. -/
structure Video where
  URL : String := ""
  SecureURL : String := ""
  «Type» : String := ""
  Width : Nat := 0
  Height : Nat := 0
deriving DecidableEq, Repr

/-- Modelled from the spec: the Intent type (repository code not under src/)
carries how to fetch and parse — the source URL and the `strict` flag used
by the walk (the transport client and cancellation token live in the
excluded fetch layer and are kept external here). -/
structure Intent where
  URL : String := ""
  Strict : Bool := false
deriving DecidableEq, Repr

/-- OpenGraph represents web page information according to OGP
(src/opengraph.go).  `Favicon` is assigned a string by tag_link.go and the
spec lists favicon as a scalar string field; `CanonicalURL` is the field
tag_link.go assigns for canonical links (its declaration is not under
src/, the spec lists canonical URL as a scalar string field). -/
structure OpenGraph where
  Title : String := ""
  «Type» : String := ""
  Image : List Image := []
  URL : String := ""
  Audio : List Audio := []
  Description : String := ""
  Determiner : String := ""
  Locale : String := ""
  LocaleAlt : List String := []
  SiteName : String := ""
  Video : List Video := []
  Favicon : String := ""
  CanonicalURL : String := ""
  Intent : Intent := {}
deriving DecidableEq, Repr

/-- New constructs an OpenGraph whose Intent carries the raw URL
(src/opengraph.go, func New). -/
def OpenGraph.New (rawurl : String) : OpenGraph :=
  { Intent := { URL := rawurl } }

/-- Link represents any link HTML tag (src/tag_link.go). -/
structure Link where
  Rel : String := ""
  Href : String := ""
deriving DecidableEq, Repr

/-- LinkTag constructs Link from the node's attribute list
(src/tag_link.go): the loop over attributes keeps the last rel and the
last href encountered. -/
def LinkTag (n : Node) : Link :=
  n.attr.foldl
    (fun link attr =>
      if attr.key = "rel" then { link with Rel := attr.val }
      else if attr.key = "href" then { link with Href := attr.val }
      else link)
    {}

/-- IsFavicon returns if it can be favicon of OpenGraph (src/tag_link.go). -/
def Link.IsFavicon (link : Link) : Bool :=
  link.Rel = "shortcut icon" ∨ link.Rel = "icon"

/-- IsCanonical returns if it can be canonical of OpenGraph
(src/tag_link.go). -/
def Link.IsCanonical (link : Link) : Bool :=
  link.Rel = "canonical"

/-- Contribute contributes OpenGraph (src/tag_link.go): a favicon-classified
link overwrites Favicon with its Href, a canonical-classified link
overwrites CanonicalURL with its Href, anything else is a no-op; the error
result is always nil (modelled as `none`). -/
def Link.Contribute (link : Link) (og : OpenGraph) : OpenGraph × Option String :=
  if link.IsFavicon then ({ og with Favicon := link.Href }, none)
  else if link.IsCanonical then ({ og with CanonicalURL := link.Href }, none)
  else (og, none)

/-- Modelled from the spec: the Meta fragment (tag_meta.go is not under
src/) — a property/content pair read from one meta element's attributes. -/
structure Meta where
  Property : String := ""
  Content : String := ""
deriving DecidableEq, Repr

/-- Modelled from the spec: the meta extractor reads the property and
content attributes of the node (last occurrence of each key kept, as in
the LinkTag attribute loop of src/tag_link.go). -/
def MetaTag (n : Node) : Meta :=
  n.attr.foldl
    (fun m attr =>
      if attr.key = "property" then { m with Property := attr.val }
      else if attr.key = "content" then { m with Content := attr.val }
      else m)
    {}

/-- updateLast applies f to the last element of a list, if any (used for
qualifying sub-properties, which attach to the most recently appended
media entry; on an empty list the update is dropped). -/
def updateLast (f : α → α) : List α → List α
  | [] => []
  | [x] => [f x]
  | x :: y :: xs => x :: updateLast f (y :: xs)

/-- Modelled from the spec: the table of recognized property names — each
maps the content value to one of: a first-occurrence-wins top-level scalar
field, an appended structured-media or locale-alternate entry, or a
qualifying attribute of the most recently appended media entry of its
kind (dropped when none exists yet). -/
def metaPropertyTable : List (String × (String → OpenGraph → OpenGraph)) :=
  [("og:title", fun c og => if og.Title = "" then { og with Title := c } else og),
   ("og:type", fun c og => if og.«Type» = "" then { og with «Type» := c } else og),
   ("og:url", fun c og => if og.URL = "" then { og with URL := c } else og),
   ("og:description", fun c og =>
     if og.Description = "" then { og with Description := c } else og),
   ("og:determiner", fun c og =>
     if og.Determiner = "" then { og with Determiner := c } else og),
   ("og:locale", fun c og => if og.Locale = "" then { og with Locale := c } else og),
   ("og:locale:alternate", fun c og => { og with LocaleAlt := og.LocaleAlt ++ [c] }),
   ("og:site_name", fun c og => if og.SiteName = "" then { og with SiteName := c } else og),
   ("og:image", fun c og => { og with Image := og.Image ++ [{ URL := c }] }),
   ("og:image:secure_url", fun c og =>
     { og with Image := updateLast (fun x => { x with SecureURL := c }) og.Image }),
   ("og:image:type", fun c og =>
     { og with Image := updateLast (fun x => { x with «Type» := c }) og.Image }),
   ("og:image:width", fun c og =>
     { og with Image := updateLast (fun x => { x with Width := c.toNat?.getD 0 }) og.Image }),
   ("og:image:height", fun c og =>
     { og with Image := updateLast (fun x => { x with Height := c.toNat?.getD 0 }) og.Image }),
   ("og:image:alt", fun c og =>
     { og with Image := updateLast (fun x => { x with Alt := c }) og.Image }),
   ("og:audio", fun c og => { og with Audio := og.Audio ++ [{ URL := c }] }),
   ("og:audio:secure_url", fun c og =>
     { og with Audio := updateLast (fun x => { x with SecureURL := c }) og.Audio }),
   ("og:audio:type", fun c og =>
     { og with Audio := updateLast (fun x => { x with «Type» := c }) og.Audio }),
   ("og:video", fun c og => { og with Video := og.Video ++ [{ URL := c }] }),
   ("og:video:secure_url", fun c og =>
     { og with Video := updateLast (fun x => { x with SecureURL := c }) og.Video }),
   ("og:video:type", fun c og =>
     { og with Video := updateLast (fun x => { x with «Type» := c }) og.Video }),
   ("og:video:width", fun c og =>
     { og with Video := updateLast (fun x => { x with Width := c.toNat?.getD 0 }) og.Video }),
   ("og:video:height", fun c og =>
     { og with Video := updateLast (fun x => { x with Height := c.toNat?.getD 0 }) og.Video })]

/-- First entry of the table whose name equals the property, applied to the
content and the aggregate; identity when no entry matches. -/
def applyEntry (tbl : List (String × (String → OpenGraph → OpenGraph)))
    (p c : String) (og : OpenGraph) : OpenGraph :=
  match tbl with
  | [] => og
  | (k, f) :: r => if p = k then f c og else applyEntry r p c og

/-- Modelled from the spec: the meta contribution — a missing content
attribute contributes nothing, unrecognized property names are silently
ignored, recognized ones apply their table entry. -/
def Meta.apply (m : Meta) (og : OpenGraph) : OpenGraph :=
  if m.Content = "" then og
  else applyEntry metaPropertyTable m.Property m.Content og

/-- Modelled from the spec: meta contribution never fails for value-level
reasons; no structural failure arises in a well-formed walk, so the error
result is nil. -/
def Meta.Contribute (m : Meta) (og : OpenGraph) : OpenGraph × Option String :=
  (m.apply og, none)

/-- Modelled from the spec: the Title fragment (tag_title.go is not under
src/) — the text content of the title element. -/
structure Title where
  Text : String := ""
deriving DecidableEq, Repr

/-- The sibling chain as a plain list. -/
def NodeList.toList : NodeList → List Node
  | .nil => []
  | .cons c cs => c :: cs.toList

/-- Modelled from the spec: the title extractor reads the node's text
content (concatenation of its text children, in order). -/
def TitleTag (n : Node) : Title :=
  ⟨(n.children.toList).foldl
    (fun s c => if c.type = NodeType.textNode then s ++ c.data else s) ""⟩

/-- Modelled from the spec: title contribution — the title is a scalar
field, first occurrence wins; never fails. -/
def Title.Contribute (t : Title) (og : OpenGraph) : OpenGraph × Option String :=
  (if og.Title = "" then { og with Title := t.Text } else og, none)

/-- The meta dispatch step of walk as a node-level function:
MetaTag(node).Contribute(og). -/
def metaContribute (n : Node) (og : OpenGraph) : OpenGraph × Option String :=
  (MetaTag n).Contribute og

/-- The title dispatch step of walk as a node-level function:
TitleTag(node).Contribute(og). -/
def titleContribute (n : Node) (og : OpenGraph) : OpenGraph × Option String :=
  (TitleTag n).Contribute og

mutual
/-- The walk of src/opengraph.go, parametric in the meta and title
contribution steps (that fragment code is not under src/): on an element
node whose tag matches the dispatch table (meta always; title and link
only when strict is off) walk returns that node's contribution result at
once — it does not descend into the dispatched node's children; on every
other node it descends into the children in sibling order, discarding the
error results of the recursive calls (line 135 of src/opengraph.go), and
returns nil.  The strict flag is og.Intent.Strict, constant throughout
the walk since contributions modify only metadata fields. -/
def walkWith (metaC titleC : Node → OpenGraph → OpenGraph × Option String)
    (strict : Bool) (og : OpenGraph) (node : Node) : OpenGraph × Option String :=
  match node with
  | .mk t d a cs =>
    if t = NodeType.elementNode ∧ d = HTMLMetaTag then
      metaC (.mk t d a cs) og
    else if t = NodeType.elementNode ∧ strict = false ∧ d = HTMLTitleTag then
      titleC (.mk t d a cs) og
    else if t = NodeType.elementNode ∧ strict = false ∧ d = HTMLLinkTag then
      (LinkTag (.mk t d a cs)).Contribute og
    else
      (walkListWith metaC titleC strict og cs, none)

/-- The child loop of walk: `for child := node.FirstChild; ...` — each
child is walked in order, the aggregate is threaded through, the error
result of each recursive call is discarded. -/
def walkListWith (metaC titleC : Node → OpenGraph → OpenGraph × Option String)
    (strict : Bool) (og : OpenGraph) (ns : NodeList) : OpenGraph :=
  match ns with
  | .nil => og
  | .cons c cs =>
      walkListWith metaC titleC strict (walkWith metaC titleC strict og c).1 cs
end

/-- The walk of src/opengraph.go with the spec-modelled meta and title
contributions, reading the strict flag from og.Intent.Strict as the source
does. -/
def OpenGraph.walk (og : OpenGraph) (node : Node) : OpenGraph × Option String :=
  walkWith metaContribute titleContribute og.Intent.Strict og node

/-- The dispatch guard of walk as a single boolean: an element node whose
tag is meta (always), or title or link (only when strict is off). -/
def dispatchable (strict : Bool) (n : Node) : Bool :=
  decide (n.type = NodeType.elementNode ∧
    (n.data = HTMLMetaTag ∨
      (strict = false ∧ (n.data = HTMLTitleTag ∨ n.data = HTMLLinkTag))))

/-- The single dispatch step of walk, applied to a node that walk
dispatches: the same guarded three-way choice among the meta, title and
link contributions; identity on anything else. -/
def contributeNode (metaC titleC : Node → OpenGraph → OpenGraph × Option String)
    (strict : Bool) (n : Node) (og : OpenGraph) : OpenGraph × Option String :=
  if n.type = NodeType.elementNode ∧ n.data = HTMLMetaTag then
    metaC n og
  else if n.type = NodeType.elementNode ∧ strict = false ∧ n.data = HTMLTitleTag then
    titleC n og
  else if n.type = NodeType.elementNode ∧ strict = false ∧ n.data = HTMLLinkTag then
    (LinkTag n).Contribute og
  else
    (og, none)

mutual
/-- Ghost observation of walk: the list of nodes walk dispatches, in the
order their contributions run — the root itself when its guard matches,
otherwise the concatenation over the children in sibling order. -/
def dispatched (strict : Bool) (n : Node) : List Node :=
  match n with
  | .mk t d a cs =>
    if t = NodeType.elementNode ∧ d = HTMLMetaTag then [.mk t d a cs]
    else if t = NodeType.elementNode ∧ strict = false ∧ d = HTMLTitleTag then [.mk t d a cs]
    else if t = NodeType.elementNode ∧ strict = false ∧ d = HTMLLinkTag then [.mk t d a cs]
    else dispatchedList strict cs

/-- `dispatched` over a sibling chain, left to right. -/
def dispatchedList (strict : Bool) : NodeList → List Node
  | .nil => []
  | .cons c cs => dispatched strict c ++ dispatchedList strict cs
end

mutual
/-- The full depth-first, pre-order, left-to-right traversal sequence of a
tree: the node itself first, then the traversals of its children in
sibling order. -/
def preorder (n : Node) : List Node :=
  match n with
  | .mk t d a cs => .mk t d a cs :: preorderList cs

/-- `preorder` over a sibling chain, left to right. -/
def preorderList : NodeList → List Node
  | .nil => []
  | .cons c cs => preorder c ++ preorderList cs
end

/-- The number of nodes of the tree whose dispatch guard matches (the
meta, title and link elements present, gated by mode). -/
def countDispatchable (strict : Bool) (n : Node) : Nat :=
  ((preorder n).filter (fun m => dispatchable strict m)).length

mutual
/-- True when no guard-matching node of the tree lies strictly below
another guard-matching node (the shape the upstream HTML parser produces:
meta and link are void elements, title holds only text). -/
def nestedFree (strict : Bool) (n : Node) : Bool :=
  match n with
  | .mk t d a cs =>
    if dispatchable strict (.mk t d a cs) then
      (preorderList cs).all (fun m => !dispatchable strict m)
    else nestedFreeList strict cs

/-- `nestedFree` over a sibling chain. -/
def nestedFreeList (strict : Bool) : NodeList → Bool
  | .nil => true
  | .cons c cs => nestedFree strict c && nestedFreeList strict cs
end

/-- The value of the last node in the list on which p fires, if any
(last-occurrence-wins selector). -/
def lastHit (p : Node → Option String) : List Node → Option String
  | [] => none
  | m :: ms => (lastHit p ms).or (p m)

/-- The canonical URL a link element would contribute: its href when the
node is a link element whose rel classifies it as canonical. -/
def canonHrefOf (m : Node) : Option String :=
  if m.type = NodeType.elementNode ∧ m.data = HTMLLinkTag ∧ (LinkTag m).IsCanonical
  then some (LinkTag m).Href else none

/-- The favicon a link element would contribute: its href when the node is
a link element whose rel classifies it as favicon. -/
def favHrefOf (m : Node) : Option String :=
  if m.type = NodeType.elementNode ∧ m.data = HTMLLinkTag ∧ (LinkTag m).IsFavicon
  then some (LinkTag m).Href else none

/-- The outcome of the external transport plus HTML parsing for one URL: a
content type header and the parse result of the body (the upstream parser
may fail, html.Parse in src/opengraph.go line 114). -/
structure FetchResponse where
  contentType : String
  body : Except String Node

/-- Fetch of src/opengraph.go (func (og *OpenGraph) Fetch): an empty
Intent.URL is rejected before anything else happens; otherwise the
transport is invoked (request construction, client selection, context
plumbing and the HTTP round trip are the external collaborators of the
excluded fetch layer, folded into the transport function), the content
type must have text/html as a leading piece, the body parse must succeed,
and the walk runs on the parsed tree.  The third component records the
URLs for which a transport request was made. -/
def OpenGraph.Fetch (og : OpenGraph)
    (transport : String → Except String FetchResponse) :
    OpenGraph × Option String × List String :=
  if og.Intent.URL = "" then (og, some "no URL given yet", [])
  else
    match transport og.Intent.URL with
    | .error e => (og, some e, [og.Intent.URL])
    | .ok res =>
      if ¬ (res.contentType.startsWith "text/html") then
        (og, some "Content type must be text/html", [og.Intent.URL])
      else
        match res.body with
        | .error e => (og, some e, [og.Intent.URL])
        | .ok node =>
          match og.walk node with
          | (og2, some e) => (og2, some e, [og.Intent.URL])
          | (og2, none) => (og2, none, [og.Intent.URL])

/-- Shorthand for an element node. -/
def elemN (d : String) (a : List Attribute) (cs : List Node) : Node :=
  .mk .elementNode d a (.ofList cs)

/-- Shorthand for a text node. -/
def textN (s : String) : Node :=
  .mk .textNode s [] .nil

/-- A document containing only a title element with text Page:
document - html - head - title - "Page". -/
def titleDoc : Node :=
  .mk .documentNode "" [] (.ofList
    [elemN "html" [] [elemN "head" [] [elemN "title" [] [textN "Page"]]]])

/-- A meta element that directly contains another meta element. -/
def tnest : Node :=
  elemN "meta" [] [elemN "meta" [] []]

/-- Shorthand for a link element carrying rel and href. -/
def linkN (rel href : String) : Node :=
  elemN "link" [⟨"rel", rel⟩, ⟨"href", href⟩] []

/-- A meta element wrapping two canonical link elements in document
order. -/
def tmeta2links : Node :=
  elemN "meta" [] [linkN "canonical" "https://a", linkN "canonical" "https://b"]

/-- A document whose two children are canonical link elements with hrefs
https://a and then https://b. -/
def t2links : Node :=
  .mk .documentNode "" [] (.ofList
    [linkN "canonical" "https://a", linkN "canonical" "https://b"])

/-- A document with one meta child. -/
def tmetaDoc : Node :=
  .mk .documentNode "" [] (.ofList [elemN "meta" [] []])

/-- A flat document with one meta, one title and one link child. -/
def tflat : Node :=
  .mk .documentNode "" [] (.ofList
    [elemN "meta" [⟨"property", "og:title"⟩, ⟨"content", "X"⟩] [],
     elemN "title" [] [textN "Page"],
     linkN "icon" "/f.ico"])

/-- A meta contribution that always reports a fatal error (the spec's
contribution signature allows structural failures). -/
def failMeta (_n : Node) (og : OpenGraph) : OpenGraph × Option String :=
  (og, some "contribute failed")

/-- A meta contribution that appends one mark to the title per invocation,
counting the dispatch invocations through the aggregate. -/
def countMeta (_n : Node) (og : OpenGraph) : OpenGraph × Option String :=
  ({ og with Title := og.Title ++ "x" }, none)

/-- A contribution that changes nothing and never fails. -/
def noopC (_n : Node) (og : OpenGraph) : OpenGraph × Option String :=
  (og, none)

/-- The dispatch guard, split the way the walk's switch splits it. -/
theorem dispatchable_cases (s : Bool) (t : NodeType) (d : String) (a : List Attribute) (cs : NodeList) :
    dispatchable s (Node.mk t d a cs) = true ↔
      ((t = NodeType.elementNode ∧ d = HTMLMetaTag) ∨
       (t = NodeType.elementNode ∧ s = false ∧ d = HTMLTitleTag) ∨
       (t = NodeType.elementNode ∧ s = false ∧ d = HTMLLinkTag)) := by
  simp [dispatchable, Node.type, Node.data]
  tauto

/-- The error result of walk comes from the root's own dispatch, or is nil. -/
theorem walkWith_snd_eq (mC tC : Node → OpenGraph → OpenGraph × Option String)
    (s : Bool) (og : OpenGraph) (n : Node) :
    (walkWith mC tC s og n).2 =
      (if dispatchable s n = true then (contributeNode mC tC s n og).2 else none) := by
  rcases n with ⟨t, d, a, cs⟩
  by_cases h1 : t = NodeType.elementNode ∧ d = HTMLMetaTag
  · rw [if_pos (by rw [dispatchable_cases]; tauto)]
    simp [walkWith, contributeNode, Node.type, Node.data, h1.1, h1.2]
  · by_cases h2 : t = NodeType.elementNode ∧ s = false ∧ d = HTMLTitleTag
    · rw [if_pos (by rw [dispatchable_cases]; tauto)]
      have hd : ¬ (d = HTMLMetaTag) := fun hc => h1 ⟨h2.1, hc⟩
      simp [walkWith, contributeNode, Node.type, Node.data, h2.1, h2.2.1, h2.2.2, hd]
    · by_cases h3 : t = NodeType.elementNode ∧ s = false ∧ d = HTMLLinkTag
      · rw [if_pos (by rw [dispatchable_cases]; tauto)]
        have hd : ¬ (d = HTMLMetaTag) := fun hc => h1 ⟨h3.1, hc⟩
        have hd2 : ¬ (d = HTMLTitleTag) := fun hc => h2 ⟨h3.1, h3.2.1, hc⟩
        simp [walkWith, contributeNode, Node.type, Node.data, h3.1, h3.2.1, h3.2.2, hd, hd2]
      · rw [if_neg (by rw [dispatchable_cases]; tauto)]
        simp [walkWith, h1, h2, h3]

mutual
/-- The aggregate walk builds is the left fold of the dispatch step over
the dispatched-node sequence. -/
theorem walkWith_fst_eq (mC tC : Node → OpenGraph → OpenGraph × Option String)
    (s : Bool) (og : OpenGraph) (n : Node) :
    (walkWith mC tC s og n).1 =
      (dispatched s n).foldl (fun og2 m => (contributeNode mC tC s m og2).1) og := by
  match n with
  | .mk t d a cs =>
    by_cases h1 : t = NodeType.elementNode ∧ d = HTMLMetaTag
    · simp [walkWith, dispatched, contributeNode, Node.type, Node.data, h1.1, h1.2]
    · by_cases h2 : t = NodeType.elementNode ∧ s = false ∧ d = HTMLTitleTag
      · have hd : ¬ (d = HTMLMetaTag) := fun hc => h1 ⟨h2.1, hc⟩
        simp [walkWith, dispatched, contributeNode, Node.type, Node.data,
          h2.1, h2.2.1, h2.2.2, hd]
      · by_cases h3 : t = NodeType.elementNode ∧ s = false ∧ d = HTMLLinkTag
        · have hd : ¬ (d = HTMLMetaTag) := fun hc => h1 ⟨h3.1, hc⟩
          have hd2 : ¬ (d = HTMLTitleTag) := fun hc => h2 ⟨h3.1, h3.2.1, hc⟩
          simp [walkWith, dispatched, contributeNode, Node.type, Node.data,
            h3.1, h3.2.1, h3.2.2, hd, hd2]
        · simp only [walkWith, dispatched, if_neg h1, if_neg h2, if_neg h3]
          exact walkListWith_eq mC tC s og cs

/-- The child loop is the same fold over the children's dispatched nodes. -/
theorem walkListWith_eq (mC tC : Node → OpenGraph → OpenGraph × Option String)
    (s : Bool) (og : OpenGraph) (ns : NodeList) :
    walkListWith mC tC s og ns =
      (dispatchedList s ns).foldl (fun og2 m => (contributeNode mC tC s m og2).1) og := by
  match ns with
  | .nil => simp [walkListWith, dispatchedList]
  | .cons c cs =>
    simp only [walkListWith, dispatchedList, List.foldl_append]
    rw [← walkWith_fst_eq mC tC s og c]
    exact walkListWith_eq mC tC s (walkWith mC tC s og c).1 cs
end

mutual
/-- Every dispatched node is an element node whose guard matches. -/
theorem mem_dispatched (s : Bool) (m : Node) (n : Node) (h : m ∈ dispatched s n) :
    m.type = NodeType.elementNode ∧ dispatchable s m = true := by
  match n with
  | .mk t d a cs =>
    by_cases h1 : t = NodeType.elementNode ∧ d = HTMLMetaTag
    · rw [dispatched, if_pos h1] at h
      rcases List.mem_singleton.1 h with rfl
      exact ⟨h1.1, by rw [dispatchable_cases]; tauto⟩
    · by_cases h2 : t = NodeType.elementNode ∧ s = false ∧ d = HTMLTitleTag
      · rw [dispatched, if_neg h1, if_pos h2] at h
        rcases List.mem_singleton.1 h with rfl
        exact ⟨h2.1, by rw [dispatchable_cases]; tauto⟩
      · by_cases h3 : t = NodeType.elementNode ∧ s = false ∧ d = HTMLLinkTag
        · rw [dispatched, if_neg h1, if_neg h2, if_pos h3] at h
          rcases List.mem_singleton.1 h with rfl
          exact ⟨h3.1, by rw [dispatchable_cases]; tauto⟩
        · rw [dispatched, if_neg h1, if_neg h2, if_neg h3] at h
          exact mem_dispatchedList s m cs h

/-- `mem_dispatched` over a sibling chain. -/
theorem mem_dispatchedList (s : Bool) (m : Node) (ns : NodeList) (h : m ∈ dispatchedList s ns) :
    m.type = NodeType.elementNode ∧ dispatchable s m = true := by
  match ns with
  | .nil => simp [dispatchedList] at h
  | .cons c cs =>
    rw [dispatchedList] at h
    rcases List.mem_append.1 h with hc | hc
    · exact mem_dispatched s m c hc
    · exact mem_dispatchedList s m cs hc
end

mutual
/-- The dispatched sequence is an order-preserving subsequence of the full
depth-first pre-order traversal. -/
theorem dispatched_sublist (s : Bool) (n : Node) :
    List.Sublist (dispatched s n) (preorder n) := by
  match n with
  | .mk t d a cs =>
    rw [dispatched, preorder]
    split
    · exact List.Sublist.cons₂ _ (List.nil_sublist _)
    · split
      · exact List.Sublist.cons₂ _ (List.nil_sublist _)
      · split
        · exact List.Sublist.cons₂ _ (List.nil_sublist _)
        · exact List.Sublist.cons _ (dispatchedList_sublist s cs)

/-- `dispatched_sublist` over a sibling chain. -/
theorem dispatchedList_sublist (s : Bool) (ns : NodeList) :
    List.Sublist (dispatchedList s ns) (preorderList ns) := by
  match ns with
  | .nil => exact List.Sublist.refl _
  | .cons c cs =>
    rw [dispatchedList, preorderList]
    exact List.Sublist.append (dispatched_sublist s c) (dispatchedList_sublist s cs)
end

mutual
/-- When no guard-matching node is nested below another, the dispatched
sequence is exactly the guard-matching subsequence of the pre-order
traversal. -/
theorem dispatched_eq_filter (s : Bool) (n : Node) (h : nestedFree s n = true) :
    dispatched s n = (preorder n).filter (fun m => dispatchable s m) := by
  match n with
  | .mk t d a cs =>
    by_cases hd : dispatchable s (Node.mk t d a cs) = true
    · have hall : (preorderList cs).all (fun m => !dispatchable s m) = true := by
        rw [nestedFree, if_pos hd] at h
        exact h
      have hnone : (preorderList cs).filter (fun m => dispatchable s m) = [] := by
        rw [List.filter_eq_nil_iff]
        intro m hm
        have := (List.all_eq_true.1 hall) m hm
        simp at this
        simp [this]
      have hone : dispatched s (Node.mk t d a cs) = [Node.mk t d a cs] := by
        rcases (dispatchable_cases s t d a cs).1 hd with h1 | h2 | h3
        · rw [dispatched, if_pos h1]
        · have c1 : ¬ (t = NodeType.elementNode ∧ d = HTMLMetaTag) := by
            intro hc
            rw [h2.2.2] at hc
            simp [HTMLTitleTag, HTMLMetaTag] at hc
          rw [dispatched, if_neg c1, if_pos h2]
        · have c1 : ¬ (t = NodeType.elementNode ∧ d = HTMLMetaTag) := by
            intro hc
            rw [h3.2.2] at hc
            simp [HTMLLinkTag, HTMLMetaTag] at hc
          have c2 : ¬ (t = NodeType.elementNode ∧ s = false ∧ d = HTMLTitleTag) := by
            intro hc
            rw [h3.2.2] at hc
            simp [HTMLLinkTag, HTMLTitleTag] at hc
          rw [dispatched, if_neg c1, if_neg c2, if_pos h3]
      rw [hone, preorder, List.filter_cons, if_pos (by simp [hd]), hnone]
    · have hfree : nestedFreeList s cs = true := by
        rw [nestedFree, if_neg hd] at h
        exact h
      have hnd : dispatched s (Node.mk t d a cs) = dispatchedList s cs := by
        have c1 : ¬ (t = NodeType.elementNode ∧ d = HTMLMetaTag) :=
          fun hc => hd ((dispatchable_cases s t d a cs).2 (Or.inl hc))
        have c2 : ¬ (t = NodeType.elementNode ∧ s = false ∧ d = HTMLTitleTag) :=
          fun hc => hd ((dispatchable_cases s t d a cs).2 (Or.inr (Or.inl hc)))
        have c3 : ¬ (t = NodeType.elementNode ∧ s = false ∧ d = HTMLLinkTag) :=
          fun hc => hd ((dispatchable_cases s t d a cs).2 (Or.inr (Or.inr hc)))
        rw [dispatched, if_neg c1, if_neg c2, if_neg c3]
      rw [hnd, preorder, List.filter_cons, if_neg (by simp [hd]),
        dispatchedList_eq_filter s cs hfree]

/-- `dispatched_eq_filter` over a sibling chain. -/
theorem dispatchedList_eq_filter (s : Bool) (ns : NodeList) (h : nestedFreeList s ns = true) :
    dispatchedList s ns = (preorderList ns).filter (fun m => dispatchable s m) := by
  match ns with
  | .nil => rfl
  | .cons c cs =>
    rw [nestedFreeList, Bool.and_eq_true] at h
    rw [dispatchedList, preorderList, List.filter_append,
      dispatched_eq_filter s c h.1, dispatchedList_eq_filter s cs h.2]
end

/-- Every entry of the meta property table leaves the favicon and canonical
URL untouched (those fields belong to link contributions). -/
theorem metaTable_preserves (e : String × (String → OpenGraph → OpenGraph))
    (he : e ∈ metaPropertyTable) (c : String) (og : OpenGraph) :
    (e.2 c og).CanonicalURL = og.CanonicalURL ∧ (e.2 c og).Favicon = og.Favicon := by
  simp only [metaPropertyTable, List.mem_cons, List.not_mem_nil, or_false] at he
  rcases he with rfl|rfl|rfl|rfl|rfl|rfl|rfl|rfl|rfl|rfl|rfl|rfl|rfl|rfl|rfl|rfl|rfl|rfl|rfl|rfl|rfl|rfl
  all_goals constructor
  all_goals first
    | rfl
    | (dsimp only; split <;> rfl)

/-- Table application preserves any field every entry preserves. -/
theorem applyEntry_preserves (tbl : List (String × (String → OpenGraph → OpenGraph)))
    (h : ∀ e ∈ tbl, ∀ c og, (e.2 c og).CanonicalURL = og.CanonicalURL ∧
      (e.2 c og).Favicon = og.Favicon)
    (p c : String) (og : OpenGraph) :
    (applyEntry tbl p c og).CanonicalURL = og.CanonicalURL ∧
      (applyEntry tbl p c og).Favicon = og.Favicon := by
  induction tbl with
  | nil => exact ⟨rfl, rfl⟩
  | cons e r ih =>
    rcases e with ⟨k, f⟩
    rw [applyEntry]
    split
    · exact h (k, f) (List.mem_cons_self _ _) c og
    · exact ih (fun e2 he2 => h e2 (List.mem_cons_of_mem _ he2))

/-- Meta contribution leaves favicon and canonical URL unchanged. -/
theorem Meta.apply_preserves_link_fields (m : Meta) (og : OpenGraph) :
    (Meta.apply m og).CanonicalURL = og.CanonicalURL ∧
      (Meta.apply m og).Favicon = og.Favicon := by
  unfold Meta.apply
  split
  · exact ⟨rfl, rfl⟩
  · exact applyEntry_preserves metaPropertyTable metaTable_preserves m.Property m.Content og

/-- Title contribution leaves favicon and canonical URL unchanged. -/
theorem Title.Contribute_preserves_link_fields (t : Title) (og : OpenGraph) :
    ((t.Contribute og).1.CanonicalURL = og.CanonicalURL ∧
      (t.Contribute og).1.Favicon = og.Favicon) := by
  unfold Title.Contribute
  constructor <;> (dsimp only) <;> (split <;> rfl)

/-- A projection of a left fold whose step is last-occurrence-wins for that
projection. -/
theorem foldl_proj_lastHit (f : OpenGraph → Node → OpenGraph) (proj : OpenGraph → String)
    (p : Node → Option String) (ns : List Node) :
    (∀ m ∈ ns, ∀ og2, proj (f og2 m) = (p m).getD (proj og2)) →
      ∀ og : OpenGraph, proj (ns.foldl f og) = (lastHit p ns).getD (proj og) := by
  induction ns with
  | nil => intro _ og; simp [lastHit]
  | cons m ms ih =>
    intro h og
    simp only [List.foldl_cons, lastHit]
    rw [ih (fun x hx og2 => h x (List.mem_cons_of_mem _ hx) og2),
      h m (List.mem_cons_self _ _) og]
    cases hms : lastHit p ms <;> cases hm : p m <;> simp [Option.or]

/-- For a non-strict dispatch step, the canonical URL after the step is the
canonical href the node offers, else the one before the step. -/
theorem contributeNode_canonical (m : Node) (og : OpenGraph) :
    (contributeNode metaContribute titleContribute false m og).1.CanonicalURL =
      (canonHrefOf m).getD og.CanonicalURL := by
  rcases m with ⟨t, d, a, cs⟩
  by_cases h1 : t = NodeType.elementNode ∧ d = HTMLMetaTag
  · rw [contributeNode, if_pos (by simpa [Node.type, Node.data] using h1)]
    have hc : canonHrefOf (Node.mk t d a cs) = none := by
      rw [canonHrefOf, if_neg]
      intro hc
      rw [h1.2] at hc
      simp [HTMLMetaTag, HTMLLinkTag, Node.data] at hc
    rw [hc, Option.getD_none]
    exact (Meta.apply_preserves_link_fields _ og).1
  · by_cases h2 : t = NodeType.elementNode ∧ d = HTMLTitleTag
    · rw [contributeNode, if_neg (by simpa [Node.type, Node.data] using h1),
        if_pos (by simp [Node.type, Node.data, h2.1, h2.2])]
      have hc : canonHrefOf (Node.mk t d a cs) = none := by
        rw [canonHrefOf, if_neg]
        intro hc
        rw [h2.2] at hc
        simp [HTMLTitleTag, HTMLLinkTag, Node.data] at hc
      rw [hc, Option.getD_none]
      exact (Title.Contribute_preserves_link_fields _ og).1
    · by_cases h3 : t = NodeType.elementNode ∧ d = HTMLLinkTag
      · rw [contributeNode, if_neg (by simpa [Node.type, Node.data] using h1),
          if_neg (by simp [Node.type, Node.data]; tauto),
          if_pos (by simp [Node.type, Node.data, h3.1, h3.2])]
        by_cases hf : (LinkTag (Node.mk t d a cs)).IsFavicon = true
        · have hnc : ¬ ((LinkTag (Node.mk t d a cs)).IsCanonical = true) := by
            rw [Link.IsFavicon] at hf
            rw [Link.IsCanonical]
            simp only [decide_eq_true_eq] at hf ⊢
            intro hc
            rw [hc] at hf
            simp at hf
          rw [Link.Contribute, if_pos hf]
          have hc : canonHrefOf (Node.mk t d a cs) = none := by
            rw [canonHrefOf, if_neg]
            intro hcc
            exact hnc hcc.2.2
          rw [hc, Option.getD_none]
        · rw [Link.Contribute, if_neg hf]
          by_cases hcan : (LinkTag (Node.mk t d a cs)).IsCanonical = true
          · rw [if_pos hcan]
            have hc : canonHrefOf (Node.mk t d a cs) =
                some (LinkTag (Node.mk t d a cs)).Href := by
              rw [canonHrefOf, if_pos ⟨h3.1, by simp [Node.data, h3.2], hcan⟩]
            rw [hc, Option.getD_some]
          · rw [if_neg hcan]
            have hc : canonHrefOf (Node.mk t d a cs) = none := by
              rw [canonHrefOf, if_neg]
              intro hcc
              exact hcan hcc.2.2
            rw [hc, Option.getD_none]
      · rw [contributeNode, if_neg (by simpa [Node.type, Node.data] using h1),
          if_neg (by simp [Node.type, Node.data]; tauto),
          if_neg (by simp [Node.type, Node.data]; tauto)]
        have hc : canonHrefOf (Node.mk t d a cs) = none := by
          rw [canonHrefOf, if_neg]
          intro hcc
          exact h3 ⟨hcc.1, hcc.2.1⟩
        rw [hc, Option.getD_none]

/-- For a non-strict dispatch step, the favicon after the step is the
favicon href the node offers, else the one before the step. -/
theorem contributeNode_favicon (m : Node) (og : OpenGraph) :
    (contributeNode metaContribute titleContribute false m og).1.Favicon =
      (favHrefOf m).getD og.Favicon := by
  rcases m with ⟨t, d, a, cs⟩
  by_cases h1 : t = NodeType.elementNode ∧ d = HTMLMetaTag
  · rw [contributeNode, if_pos (by simpa [Node.type, Node.data] using h1)]
    have hc : favHrefOf (Node.mk t d a cs) = none := by
      rw [favHrefOf, if_neg]
      intro hc
      rw [h1.2] at hc
      simp [HTMLMetaTag, HTMLLinkTag, Node.data] at hc
    rw [hc, Option.getD_none]
    exact (Meta.apply_preserves_link_fields _ og).2
  · by_cases h2 : t = NodeType.elementNode ∧ d = HTMLTitleTag
    · rw [contributeNode, if_neg (by simpa [Node.type, Node.data] using h1),
        if_pos (by simp [Node.type, Node.data, h2.1, h2.2])]
      have hc : favHrefOf (Node.mk t d a cs) = none := by
        rw [favHrefOf, if_neg]
        intro hc
        rw [h2.2] at hc
        simp [HTMLTitleTag, HTMLLinkTag, Node.data] at hc
      rw [hc, Option.getD_none]
      exact (Title.Contribute_preserves_link_fields _ og).2
    · by_cases h3 : t = NodeType.elementNode ∧ d = HTMLLinkTag
      · rw [contributeNode, if_neg (by simpa [Node.type, Node.data] using h1),
          if_neg (by simp [Node.type, Node.data]; tauto),
          if_pos (by simp [Node.type, Node.data, h3.1, h3.2])]
        by_cases hf : (LinkTag (Node.mk t d a cs)).IsFavicon = true
        · rw [Link.Contribute, if_pos hf]
          have hc : favHrefOf (Node.mk t d a cs) =
              some (LinkTag (Node.mk t d a cs)).Href := by
            rw [favHrefOf, if_pos ⟨h3.1, by simp [Node.data, h3.2], hf⟩]
          rw [hc, Option.getD_some]
        · rw [Link.Contribute, if_neg hf]
          have hc : favHrefOf (Node.mk t d a cs) = none := by
            rw [favHrefOf, if_neg]
            intro hcc
            exact hf hcc.2.2
          rw [hc, Option.getD_none]
          split <;> rfl
      · rw [contributeNode, if_neg (by simpa [Node.type, Node.data] using h1),
          if_neg (by simp [Node.type, Node.data]; tauto),
          if_neg (by simp [Node.type, Node.data]; tauto)]
        have hc : favHrefOf (Node.mk t d a cs) = none := by
          rw [favHrefOf, if_neg]
          intro hcc
          exact h3 ⟨hcc.1, hcc.2.1⟩
        rw [hc, Option.getD_none]

/-- A link element with no href attribute extracts an empty Href. -/
theorem LinkTag_Href_empty (t : NodeType) (d : String) (a : List Attribute) (cs : NodeList)
    (h : ∀ x ∈ a, ¬ x.key = "href") :
    (LinkTag (Node.mk t d a cs)).Href = "" := by
  have aux : ∀ (a2 : List Attribute) (l : Link), (∀ x ∈ a2, ¬ x.key = "href") → l.Href = "" →
      (a2.foldl
        (fun link attr =>
          if attr.key = "rel" then { link with Rel := attr.val }
          else if attr.key = "href" then { link with Href := attr.val }
          else link) l).Href = "" := by
    intro a2
    induction a2 with
    | nil => intro l _ hl; exact hl
    | cons x xs ih =>
      intro l hx hl
      rw [List.foldl_cons]
      apply ih _ (fun y hy => hx y (List.mem_cons_of_mem _ hy))
      by_cases hr : x.key = "rel"
      · rw [if_pos hr]; exact hl
      · rw [if_neg hr, if_neg (hx x (List.mem_cons_self _ _))]; exact hl
  exact aux a {} h rfl

/-- C1 (counterexample): in a document whose meta child's Contribute call
returns a fatal error, walk still returns nil to its caller — the child
loop of walk discards the error of the recursive call (line 135 of
src/opengraph.go), so a contribution error for a dispatched node below
the root is not propagated. -/
theorem C1_counterexample :
    (failMeta (elemN "meta" [] []) ({} : OpenGraph)).2 = some "contribute failed" ∧
      dispatched false tmetaDoc = [elemN "meta" [] []] ∧
      (walkWith failMeta titleContribute false ({} : OpenGraph) tmetaDoc).2 = none :=
  ⟨rfl, rfl, rfl⟩

/-- C1 (amended): walk returns the Contribute error only when the node walk
was invoked on is itself dispatched; contribution errors arising at
strictly deeper nodes are discarded and walk returns nil, whatever the
meta and title contribution functions do. -/
theorem C1_amended_error_propagation
    (mC tC : Node → OpenGraph → OpenGraph × Option String)
    (s : Bool) (og : OpenGraph) (n : Node) :
    (walkWith mC tC s og n).2 =
      (if dispatchable s n = true then (contributeNode mC tC s n og).2 else none) :=
  walkWith_snd_eq mC tC s og n

/-- C2 (counterexample): a tree of one meta element directly containing a
second meta element has two guard-matching elements but walk performs
exactly one dispatch invocation on it (observed by a counting meta
contribution): the children of a dispatched node are never visited. -/
theorem C2_counterexample :
    countDispatchable false tnest = 2 ∧
      (dispatched false tnest).length = 1 ∧
      (walkWith countMeta titleContribute false ({} : OpenGraph) tnest).1.Title = "x" :=
  ⟨rfl, rfl, rfl⟩

/-- C2 (amended): provided no guard-matching element is nested below
another guard-matching element (as in trees the upstream HTML parser
produces), walk dispatches exactly the meta, title and link elements
present (gated by mode), each exactly once: the dispatched sequence is
the guard-matching subsequence of the pre-order traversal and its length
is the number of matching elements. -/
theorem C2_amended_dispatch_count (s : Bool) (n : Node) (h : nestedFree s n = true) :
    dispatched s n = (preorder n).filter (fun m => dispatchable s m) ∧
      (dispatched s n).length = countDispatchable s n := by
  have he := dispatched_eq_filter s n h
  exact ⟨he, by rw [he, countDispatchable]⟩

/-- C2 (witness): the amended statement evaluated on a flat document with
one meta, one title and one link child. -/
theorem C2_witness :
    dispatched false tflat =
        (preorder tflat).filter (fun m => dispatchable false m) ∧
      (dispatched false tflat).length = countDispatchable false tflat :=
  C2_amended_dispatch_count false tflat rfl

/-- C3 (counterexample): a link element with rel icon and no href attribute
does not leave the aggregate unchanged — contributing it overwrites a
previously set favicon with the empty string. -/
theorem C3_counterexample :
    ((LinkTag (elemN "link" [⟨"rel", "icon"⟩] [])).Contribute
        ({ Favicon := "/old.ico" } : OpenGraph)).1.Favicon = "" ∧
      ¬ (((LinkTag (elemN "link" [⟨"rel", "icon"⟩] [])).Contribute
        ({ Favicon := "/old.ico" } : OpenGraph)).1 = ({ Favicon := "/old.ico" } : OpenGraph)) :=
  ⟨rfl, by decide⟩

/-- C3 (amended): for a link element with no href attribute, contribution
overwrites the classified field (favicon, or canonical URL) with the
empty string and changes nothing else; an unclassified rel is a no-op;
the error result is always nil. -/
theorem C3_amended_missing_href (og : OpenGraph) (t : NodeType) (d : String)
    (a : List Attribute) (cs : NodeList) (h : ∀ x ∈ a, ¬ x.key = "href") :
    ((LinkTag (Node.mk t d a cs)).IsFavicon = true →
        (LinkTag (Node.mk t d a cs)).Contribute og = ({ og with Favicon := "" }, none)) ∧
      ((LinkTag (Node.mk t d a cs)).IsCanonical = true →
        (LinkTag (Node.mk t d a cs)).Contribute og = ({ og with CanonicalURL := "" }, none)) ∧
      ((LinkTag (Node.mk t d a cs)).IsFavicon = false →
        (LinkTag (Node.mk t d a cs)).IsCanonical = false →
        (LinkTag (Node.mk t d a cs)).Contribute og = (og, none)) := by
  have hh := LinkTag_Href_empty t d a cs h
  refine ⟨?_, ?_, ?_⟩
  · intro hf
    rw [Link.Contribute, if_pos hf, hh]
  · intro hc
    have hrel : (LinkTag (Node.mk t d a cs)).Rel = "canonical" := by
      rw [Link.IsCanonical] at hc
      exact of_decide_eq_true hc
    have hf : ¬ ((LinkTag (Node.mk t d a cs)).IsFavicon = true) := by
      rw [Link.IsFavicon, hrel]
      simp
    rw [Link.Contribute, if_neg hf, if_pos hc, hh]
  · intro hf hc
    rw [Link.Contribute, if_neg (by rw [hf]; exact Bool.false_ne_true),
      if_neg (by rw [hc]; exact Bool.false_ne_true)]

/-- C3 (witness): the amended statement evaluated on a favicon link with
no href against an aggregate holding a previous favicon. -/
theorem C3_witness :
    (LinkTag (elemN "link" [⟨"rel", "icon"⟩] [])).Contribute
        ({ Favicon := "/old.ico" } : OpenGraph) =
      ({ ({ Favicon := "/old.ico" } : OpenGraph) with Favicon := "" }, none) :=
  (C3_amended_missing_href { Favicon := "/old.ico" } NodeType.elementNode "link"
      [⟨"rel", "icon"⟩] (NodeList.ofList []) (by decide)).1 (by decide)

/-- C4: in walk, a visited meta element is dispatched regardless of the
strict flag, while a visited title or link element is dispatched exactly
when strict mode is off (otherwise walk just descends into its
children); consequently a document containing only a title element
yields an empty title under strict mode and the title's text otherwise. -/
theorem C4_strict_gating :
    (∀ (mC tC : Node → OpenGraph → OpenGraph × Option String) (s : Bool)
        (og : OpenGraph) (a : List Attribute) (cs : NodeList),
      walkWith mC tC s og (Node.mk NodeType.elementNode HTMLMetaTag a cs) =
        mC (Node.mk NodeType.elementNode HTMLMetaTag a cs) og) ∧
    (∀ (mC tC : Node → OpenGraph → OpenGraph × Option String)
        (og : OpenGraph) (a : List Attribute) (cs : NodeList),
      walkWith mC tC false og (Node.mk NodeType.elementNode HTMLTitleTag a cs) =
        tC (Node.mk NodeType.elementNode HTMLTitleTag a cs) og) ∧
    (∀ (mC tC : Node → OpenGraph → OpenGraph × Option String)
        (og : OpenGraph) (a : List Attribute) (cs : NodeList),
      walkWith mC tC true og (Node.mk NodeType.elementNode HTMLTitleTag a cs) =
        (walkListWith mC tC true og cs, none)) ∧
    (∀ (mC tC : Node → OpenGraph → OpenGraph × Option String)
        (og : OpenGraph) (a : List Attribute) (cs : NodeList),
      walkWith mC tC false og (Node.mk NodeType.elementNode HTMLLinkTag a cs) =
        (LinkTag (Node.mk NodeType.elementNode HTMLLinkTag a cs)).Contribute og) ∧
    (∀ (mC tC : Node → OpenGraph → OpenGraph × Option String)
        (og : OpenGraph) (a : List Attribute) (cs : NodeList),
      walkWith mC tC true og (Node.mk NodeType.elementNode HTMLLinkTag a cs) =
        (walkListWith mC tC true og cs, none)) ∧
    (OpenGraph.walk { Intent := { Strict := true } } titleDoc).1.Title = "" ∧
    (OpenGraph.walk { Intent := { Strict := false } } titleDoc).1.Title = "Page" := by
  refine ⟨?_, ?_, ?_, ?_, ?_, rfl, rfl⟩
  · intro mC tC s og a cs
    simp [walkWith]
  · intro mC tC og a cs
    simp [walkWith, HTMLTitleTag, HTMLMetaTag]
  · intro mC tC og a cs
    simp [walkWith, HTMLTitleTag, HTMLMetaTag, HTMLLinkTag]
  · intro mC tC og a cs
    simp [walkWith, HTMLLinkTag, HTMLMetaTag, HTMLTitleTag]
  · intro mC tC og a cs
    simp [walkWith, HTMLLinkTag, HTMLMetaTag, HTMLTitleTag]

/-- C5: contributing a Link fragment sets the favicon to the href exactly
when rel is shortcut icon or icon, sets the canonical URL to the href
exactly when rel is canonical, and changes no other field of the
aggregate in any case; for every other rel value the whole contribution
is a no-op, and the error result is always nil. -/
theorem C5_link_contribution_fields (og : OpenGraph) (link : Link) :
    ((link.Contribute og).1.Favicon =
        (if link.Rel = "shortcut icon" ∨ link.Rel = "icon" then link.Href else og.Favicon)) ∧
    ((link.Contribute og).1.CanonicalURL =
        (if link.Rel = "canonical" then link.Href else og.CanonicalURL)) ∧
    (link.Contribute og).1.Title = og.Title ∧
    (link.Contribute og).1.«Type» = og.«Type» ∧
    (link.Contribute og).1.Image = og.Image ∧
    (link.Contribute og).1.URL = og.URL ∧
    (link.Contribute og).1.Audio = og.Audio ∧
    (link.Contribute og).1.Description = og.Description ∧
    (link.Contribute og).1.Determiner = og.Determiner ∧
    (link.Contribute og).1.Locale = og.Locale ∧
    (link.Contribute og).1.LocaleAlt = og.LocaleAlt ∧
    (link.Contribute og).1.SiteName = og.SiteName ∧
    (link.Contribute og).1.Video = og.Video ∧
    (link.Contribute og).1.Intent = og.Intent ∧
    (link.Contribute og).2 = none := by
  by_cases h1 : link.Rel = "shortcut icon" ∨ link.Rel = "icon"
  · have hnc : ¬ (link.Rel = "canonical") := by
      intro hc
      rcases h1 with h | h <;> (rw [hc] at h; simp at h)
    simp [Link.Contribute, Link.IsFavicon, Link.IsCanonical, h1, hnc]
  · by_cases h2 : link.Rel = "canonical"
    · simp [Link.Contribute, Link.IsFavicon, Link.IsCanonical, h1, h2,
        (fun hc => h1 (Or.inl hc) : ¬ (link.Rel = "shortcut icon")),
        (fun hc => h1 (Or.inr hc) : ¬ (link.Rel = "icon"))]
    · simp [Link.Contribute, Link.IsFavicon, Link.IsCanonical, h1, h2,
        (fun hc => h1 (Or.inl hc) : ¬ (link.Rel = "shortcut icon")),
        (fun hc => h1 (Or.inr hc) : ¬ (link.Rel = "icon"))]

/-- C6 (counterexample): a tree containing two canonical link elements in
document order whose canonical URL after a lenient walk is not the second
element's href — the two links sit below a meta element, walk dispatches
the meta and never reaches them. -/
theorem C6_counterexample :
    (OpenGraph.walk ({} : OpenGraph) tmeta2links).1.CanonicalURL = "" ∧
      ¬ (("" : String) = "https://b") :=
  ⟨rfl, by decide⟩

/-- C6 (amended): over any lenient walk, the canonical URL of the result is
the href of the last canonical link element the walk dispatches (the
initial value when none is dispatched), and likewise the favicon is the
href of the last dispatched favicon link: overwrite, last-dispatched
occurrence wins. -/
theorem C6_amended_last_dispatched_wins (og : OpenGraph) (n : Node)
    (h : og.Intent.Strict = false) :
    ((og.walk n).1.CanonicalURL =
        (lastHit canonHrefOf (dispatched false n)).getD og.CanonicalURL) ∧
      ((og.walk n).1.Favicon =
        (lastHit favHrefOf (dispatched false n)).getD og.Favicon) := by
  unfold OpenGraph.walk
  rw [h]
  constructor
  · rw [walkWith_fst_eq]
    exact foldl_proj_lastHit _ (fun og2 => og2.CanonicalURL) canonHrefOf _
      (fun m _ og2 => contributeNode_canonical m og2) og
  · rw [walkWith_fst_eq]
    exact foldl_proj_lastHit _ (fun og2 => og2.Favicon) favHrefOf _
      (fun m _ og2 => contributeNode_favicon m og2) og

/-- C6 (witness): the amended statement on a document with two dispatched
canonical links (the last one wins). -/
theorem C6_witness :
    (OpenGraph.walk ({} : OpenGraph) t2links).1.CanonicalURL =
      (lastHit canonHrefOf (dispatched false t2links)).getD
        ({} : OpenGraph).CanonicalURL :=
  (C6_amended_last_dispatched_wins {} t2links rfl).1

/-- C7: walk traverses depth-first in pre-order — the dispatched sequence
is an order-preserving subsequence of the pre-order left-to-right
traversal whose first node is the root; only element nodes matching the
dispatch guard are dispatched; a non-element node is never dispatched
itself but its children are still descended into; and the aggregate walk
returns is the left fold of the dispatch step over that sequence. -/
theorem C7_preorder_dispatch (mC tC : Node → OpenGraph → OpenGraph × Option String)
    (s : Bool) (og : OpenGraph) (n : Node) :
    List.Sublist (dispatched s n) (preorder n) ∧
    (preorder n).head? = some n ∧
    (∀ m ∈ dispatched s n, m.type = NodeType.elementNode ∧ dispatchable s m = true) ∧
    (∀ (t : NodeType) (d : String) (a : List Attribute) (cs : NodeList),
      ¬ (t = NodeType.elementNode) →
        dispatched s (Node.mk t d a cs) = dispatchedList s cs ∧
        walkWith mC tC s og (Node.mk t d a cs) = (walkListWith mC tC s og cs, none)) ∧
    (walkWith mC tC s og n).1 =
      (dispatched s n).foldl (fun og2 m => (contributeNode mC tC s m og2).1) og := by
  refine ⟨dispatched_sublist s n, ?_, fun m hm => mem_dispatched s m n hm, ?_,
    walkWith_fst_eq mC tC s og n⟩
  · rcases n with ⟨t, d, a, cs⟩
    rw [preorder]
    rfl
  · intro t d a cs ht
    have c1 : ¬ (t = NodeType.elementNode ∧ d = HTMLMetaTag) := fun hc => ht hc.1
    have c2 : ¬ (t = NodeType.elementNode ∧ s = false ∧ d = HTMLTitleTag) := fun hc => ht hc.1
    have c3 : ¬ (t = NodeType.elementNode ∧ s = false ∧ d = HTMLLinkTag) := fun hc => ht hc.1
    constructor
    · rw [dispatched, if_neg c1, if_neg c2, if_neg c3]
    · rw [walkWith, if_neg c1, if_neg c2, if_neg c3]

/-- C7 (witness): the traversal facts evaluated on the title document and
on a bare text node. -/
theorem C7_witness :
    List.Sublist (dispatched false titleDoc) (preorder titleDoc) ∧
      dispatched false (Node.mk NodeType.textNode "z" [] NodeList.nil) =
        dispatchedList false NodeList.nil :=
  ⟨(C7_preorder_dispatch noopC noopC false {} titleDoc).1,
    ((C7_preorder_dispatch noopC noopC false {} titleDoc).2.2.2.1
      NodeType.textNode "z" [] NodeList.nil (by decide)).1⟩

/-- C8: the walk is deterministic — two walks of the same tree from fresh
aggregates that carry the same intent produce identical aggregate
records (the walk is a pure function of the tree and the intent). -/
theorem C8_determinism (u : String) (s : Bool) (n : Node)
    (r1 r2 : OpenGraph × Option String)
    (h1 : r1 = OpenGraph.walk { Intent := { URL := u, Strict := s } } n)
    (h2 : r2 = OpenGraph.walk { Intent := { URL := u, Strict := s } } n) :
    r1 = r2 :=
  h1.trans h2.symm

/-- C8 (witness): two runs on the title document agree. -/
theorem C8_witness :
    OpenGraph.walk { Intent := { URL := "", Strict := false } } titleDoc =
      OpenGraph.walk { Intent := { URL := "", Strict := false } } titleDoc :=
  C8_determinism "" false titleDoc _ _ rfl rfl

/-- C9: when Intent.URL is empty, Fetch reports the configuration error at
once and the operation never starts — the aggregate comes back exactly as
it was (no metadata field modified) and no transport request is made. -/
theorem C9_fetch_empty_url (og : OpenGraph)
    (transport : String → Except String FetchResponse)
    (h : og.Intent.URL = "") :
    og.Fetch transport = (og, some "no URL given yet", []) := by
  rw [OpenGraph.Fetch, if_pos h]

/-- C9 (witness): Fetch on a fresh OpenGraph with an empty URL, against a
transport that would fail if consulted. -/
theorem C9_witness :
    (OpenGraph.New "").Fetch (fun _ => Except.error "network unavailable") =
      (OpenGraph.New "", some "no URL given yet", []) :=
  C9_fetch_empty_url (OpenGraph.New "") (fun _ => Except.error "network unavailable") rfl

/-- C10: Link.Contribute returns nil for every Link fragment and every
aggregate; and whenever the meta and title contributions never fail, the
whole walk never returns an error — a link contribution can never be the
cause of a walk aborting. -/
theorem C10_contribute_never_fails :
    (∀ (link : Link) (og : OpenGraph), (link.Contribute og).2 = none) ∧
      (∀ (mC tC : Node → OpenGraph → OpenGraph × Option String),
        (∀ (n : Node) (og : OpenGraph), (mC n og).2 = none) →
        (∀ (n : Node) (og : OpenGraph), (tC n og).2 = none) →
        ∀ (s : Bool) (og : OpenGraph) (n : Node), (walkWith mC tC s og n).2 = none) := by
  have hlink : ∀ (link : Link) (og : OpenGraph), (link.Contribute og).2 = none := by
    intro link og
    rw [Link.Contribute]
    split
    · rfl
    · split <;> rfl
  refine ⟨hlink, ?_⟩
  intro mC tC hm ht s og n
  rw [walkWith_snd_eq]
  split
  · rw [contributeNode]
    split
    · exact hm _ og
    · split
      · exact ht _ og
      · split
        · exact hlink _ og
        · rfl
  · rfl

/-- C10 (witness): evaluated on a stylesheet link and on a walk whose meta
and title contributions are the error-free no-op. -/
theorem C10_witness :
    ((⟨"stylesheet", "/s.css"⟩ : Link).Contribute ({} : OpenGraph)).2 = none ∧
      (walkWith noopC noopC true ({} : OpenGraph) tflat).2 = none :=
  ⟨C10_contribute_never_fails.1 ⟨"stylesheet", "/s.css"⟩ {},
    C10_contribute_never_fails.2 noopC noopC (fun _ _ => rfl) (fun _ _ => rfl) true {} tflat⟩
